import Mathlib

/-!
Verification of the UniSwap V3 swap-observation service
(`app/services/uniswap_v3/service.py`).

The service reads swap log entries from a repository, scales the two raw
integer legs by the pool's token decimals (honouring a reverse flag that
swaps which raw leg feeds which output slot), resolves each event's block
to a civil timestamp, and emits one flat normalized tuple per event.

Python's `/` on integers is binary-float true division; the primary model
below uses exact rational division, and the IEEE-754 binary64 rounding
performed by the real code is modelled separately by `toFloat64` /
`pythonTrueDiv`, which are used to analyse the precision claim.
-/

/-- The decoded `args` payload of a Uniswap V3 `Swap` log entry, as the
service reads it: `swap.args.amount0`, `swap.args.amount1` (signed raw
integer legs) and `swap.args.recipient`. -/
structure SwapArgs where
  amount0 : ℤ
  amount1 : ℤ
  recipient : String
deriving DecidableEq

/-- A swap log entry (`LogReceipt` in the source): the service reads
`swap.args`, `swap.transactionHash` (bytes, rendered with `.hex()`) and
`swap.blockNumber`. The hash bytes are modelled as a list of byte values. -/
structure LogReceipt where
  args : SwapArgs
  transactionHash : List ℕ
  blockNumber : ℕ
deriving DecidableEq

/-- The repository data the service reads: `_token0_decimals`,
`_token1_decimals`, `_token0_symbol`, `_token1_symbol`,
`_contract._address`, the block-timestamp lookup
`_w3.eth.get_block(n).timestamp` (an `Option`, modelling the `LookupError`
raised when the block is not found) and the batch that
`_blocks.get_new_entries()` returns for the current call. -/
structure Repository where
  token0_decimals : ℕ
  token1_decimals : ℕ
  token0_symbol : String
  token1_symbol : String
  contract_address : String
  get_block_timestamp : ℕ → Option ℤ
  new_entries : List LogReceipt

/-- Hex digit character, lowercase, as produced by Python's `hex()`. -/
def hexDigitChar (n : ℕ) : Char :=
  if n < 10 then Char.ofNat (48 + n) else Char.ofNat (87 + n)

/-- Two-digit lowercase hex rendering of one byte. -/
def byteHex (b : ℕ) : String :=
  String.mk [hexDigitChar (b / 16 % 16), hexDigitChar (b % 16)]

/-- Models `HexBytes.hex()`: `0x` followed by two lowercase hex digits per
byte. -/
def bytesHex (bs : List ℕ) : String :=
  "0x" ++ String.join (bs.map byteHex)

/-- Zero-padded two-digit rendering of a small number. -/
def pad2 (n : ℕ) : String :=
  if n < 10 then "0" ++ toString n else toString n

/-- Proleptic-Gregorian date for a day count since 1970-01-01 (the
standard civil-from-days algorithm): year, month, day. -/
def civilFromDays (z0 : ℤ) : ℤ × ℕ × ℕ :=
  let z := z0 + 719468
  let era := z.fdiv 146097
  let doe := (z - era * 146097).toNat
  let yoe := (doe - doe / 1460 + doe / 36524 - doe / 146096) / 365
  let doy := doe - (365 * yoe + yoe / 4 - yoe / 100)
  let mp := (5 * doy + 2) / 153
  let d := doy - (153 * mp + 2) / 5 + 1
  let m := if mp < 10 then mp + 3 else mp - 9
  ((yoe : ℤ) + era * 400 + (if m ≤ 2 then 1 else 0), m, d)

/-- Models `str(datetime.datetime.fromtimestamp(ts))` in a UTC
environment: `YYYY-MM-DD HH:MM:SS` for the POSIX timestamp `ts`. -/
def datetimeStr (ts : ℤ) : String :=
  let days := ts.fdiv 86400
  let secs := (ts - days * 86400).toNat
  let c := civilFromDays days
  toString c.1 ++ "-" ++ pad2 c.2.1 ++ "-" ++ pad2 c.2.2 ++ " " ++
    pad2 (secs / 3600) ++ ":" ++ pad2 (secs % 3600 / 60) ++ ":" ++ pad2 (secs % 60)

/-- Output record: the flat tuple yielded by `observe`, in source order:
blockchain, contract address, recipient, token0 symbol, token1 symbol,
amount0, amount1, transaction-hash hex string, timestamp string. -/
abbrev NormalizedSwap : Type :=
  String × String × String × String × String × ℚ × ℚ × String × String

namespace UniSwapV3WSSService

/-- `UniSwapV3WSSService._amount0`: `swap.args.amount0 / 10**_token0_decimals`
when not reversed, else `swap.args.amount1 / 10**_token0_decimals`.
This is the exact-rational idealization of that expression; the source's
`/` is binary64 float true division, modelled faithfully by
`amount0_float` below, and the two agree exactly whenever the quotient
is binary64-representable. -/
def _amount0 (repo : Repository) (is_reverse : Bool) (swap : LogReceipt) : ℚ :=
  if !is_reverse then (swap.args.amount0 : ℚ) / ((10 ^ repo.token0_decimals : ℕ) : ℚ)
  else (swap.args.amount1 : ℚ) / ((10 ^ repo.token0_decimals : ℕ) : ℚ)

/-- `UniSwapV3WSSService._amount1`: `swap.args.amount1 / 10**_token1_decimals`
when not reversed, else `swap.args.amount0 / 10**_token1_decimals`.
Exact-rational idealization, as for `_amount0`; the faithful float
semantics is `amount1_float` below. -/
def _amount1 (repo : Repository) (is_reverse : Bool) (swap : LogReceipt) : ℚ :=
  if !is_reverse then (swap.args.amount1 : ℚ) / ((10 ^ repo.token1_decimals : ℕ) : ℚ)
  else (swap.args.amount0 : ℚ) / ((10 ^ repo.token1_decimals : ℕ) : ℚ)

/-- The list comprehension inside `observe`: one tuple per swap of the
batch; a failing `get_block(...)` lookup (raised `LookupError`) aborts the
whole comprehension, so the call produces `none` and emits nothing. -/
def observe_go (repo : Repository) (is_reverse : Bool) (blockchain : String) :
    List LogReceipt → Option (List NormalizedSwap)
  | [] => some []
  | swap :: rest =>
    match repo.get_block_timestamp swap.blockNumber,
          observe_go repo is_reverse blockchain rest with
    | some ts, some tail =>
      some ((blockchain, repo.contract_address, swap.args.recipient,
             repo.token0_symbol, repo.token1_symbol,
             _amount0 repo is_reverse swap, _amount1 repo is_reverse swap,
             bytesHex swap.transactionHash, datetimeStr ts) :: tail)
    | _, _ => none

/-- `UniSwapV3WSSService.observe`: yields the list of normalized tuples
for the batch returned by `_blocks.get_new_entries()`. -/
def observe (repo : Repository) (is_reverse : Bool) (blockchain : String) :
    Option (List NormalizedSwap) :=
  observe_go repo is_reverse blockchain repo.new_entries

end UniSwapV3WSSService

namespace UniSwapV3HTTPService

/-- `UniSwapV3HTTPService` inherits `_amount0` unchanged from
`UniSwapV3WSSService`, overriding only the repository binding. -/
def _amount0 : Repository → Bool → LogReceipt → ℚ :=
  UniSwapV3WSSService._amount0

/-- Inherited `_amount1`. -/
def _amount1 : Repository → Bool → LogReceipt → ℚ :=
  UniSwapV3WSSService._amount1

/-- Inherited `observe`. -/
def observe : Repository → Bool → String → Option (List NormalizedSwap) :=
  UniSwapV3WSSService.observe

end UniSwapV3HTTPService

/-- Modelled from the spec: `scale(x, d) = x / 10^d`, the reference
scaling function the spec states the amount operations against. -/
def scale (x : ℤ) (d : ℕ) : ℚ := (x : ℚ) / (10 : ℚ) ^ d

/-- Modelled from the spec: the NormalizedSwap record assembled for one
raw event — chain, pool address, recipient, token0 symbol, token1 symbol,
amount0, amount1, transaction-hash hex string, civil timestamp string, in
this order. -/
def specRecord (repo : Repository) (is_reverse : Bool) (blockchain : String)
    (ts : ℤ) (swap : LogReceipt) : NormalizedSwap :=
  (blockchain, repo.contract_address, swap.args.recipient, repo.token0_symbol,
   repo.token1_symbol, UniSwapV3WSSService._amount0 repo is_reverse swap,
   UniSwapV3WSSService._amount1 repo is_reverse swap,
   bytesHex swap.transactionHash, datetimeStr ts)

/-- Fuel-bounded binary logarithm: equals `⌊log₂ n⌋` whenever `n < 2 ^ fuel`. -/
def log2fuel : ℕ → ℕ → ℕ
  | 0, _ => 0
  | fuel + 1, n => if 2 ≤ n then log2fuel fuel (n / 2) + 1 else 0

/-- Binary logarithm with fuel 400, enough for every magnitude this model
meets (the spec bounds raw legs by `2 ^ 256`). -/
def natLog2 (n : ℕ) : ℕ := log2fuel 400 n

/-- `2 ^ e` as a rational, for a signed exponent. -/
def pow2z (e : ℤ) : ℚ :=
  if 0 ≤ e then ((2 ^ e.toNat : ℕ) : ℚ) else 1 / ((2 ^ (-e).toNat : ℕ) : ℚ)

/-- Floor of the binary logarithm of a positive rational. -/
def floorLog2Q (q : ℚ) : ℤ :=
  let la : ℤ := natLog2 q.num.natAbs
  let lb : ℤ := natLog2 q.den
  if pow2z (la - lb) ≤ |q| then la - lb else la - lb - 1

/-- Round a rational to an integer, half to even (IEEE-754 default). -/
def roundHalfToEven (x : ℚ) : ℤ :=
  let f := x.floor
  if x - (f : ℚ) < 1 / 2 then f
  else if 1 / 2 < x - (f : ℚ) then f + 1
  else if f % 2 = 0 then f else f + 1

/-- The IEEE-754 binary64 value nearest to `q` (ties to even), as an exact
rational: the significand is `q` scaled into `[2^52, 2^53)` and rounded.
Subnormal underflow and overflow to infinity are outside the range this
model is applied to. -/
def toFloat64 (q : ℚ) : ℚ :=
  if q = 0 then 0
  else
    let e : ℤ := floorLog2Q |q| - 52
    (roundHalfToEven (q / pow2z e) : ℚ) * pow2z e

/-- CPython's true division of two integers: the exact quotient correctly
rounded to binary64, which is what `swap.args.amount0 / 10**decimals`
actually computes in the source. -/
def pythonTrueDiv (a b : ℤ) : ℚ := toFloat64 ((a : ℚ) / (b : ℚ))

/-- `_amount0` with the float semantics the source really has: the
quotient is rounded to binary64. -/
def UniSwapV3WSSService.amount0_float (repo : Repository) (is_reverse : Bool)
    (swap : LogReceipt) : ℚ :=
  if !is_reverse then pythonTrueDiv swap.args.amount0 (10 ^ repo.token0_decimals : ℤ)
  else pythonTrueDiv swap.args.amount1 (10 ^ repo.token0_decimals : ℤ)

/-- `_amount1` with the float semantics the source really has. -/
def UniSwapV3WSSService.amount1_float (repo : Repository) (is_reverse : Bool)
    (swap : LogReceipt) : ℚ :=
  if !is_reverse then pythonTrueDiv swap.args.amount1 (10 ^ repo.token1_decimals : ℤ)
  else pythonTrueDiv swap.args.amount0 (10 ^ repo.token1_decimals : ℤ)

/-- Modelled from the spec: the push EventSource's cursor state. The
filter object behind `_blocks.get_new_entries()` lives in the repository
layer, which is not part of the sources here; the spec describes it as a
stream drained strictly forward by an already-seen cursor. `stream` is
the full sequence the transport ever delivers, `cursor` counts how many
entries earlier calls have already drained. -/
structure EventSourceState where
  stream : List LogReceipt
  cursor : ℕ

/-- Modelled from the spec: one `get_new_entries()` call. `available` is
how many entries the transport has accumulated so far; the call returns
exactly the entries past the cursor and advances the cursor over them. -/
def get_new_entries (s : EventSourceState) (available : ℕ) :
    List LogReceipt × EventSourceState :=
  ((s.stream.take available).drop s.cursor, ⟨s.stream, max s.cursor available⟩)

/-- A sequence of `get_new_entries` calls on one source instance,
collecting each call's batch. -/
def runPolls : EventSourceState → List ℕ → List (List LogReceipt)
  | _, [] => []
  | s, a :: rest => (get_new_entries s a).1 :: runPolls (get_new_entries s a).2 rest

/-- The spec's worked example event: `amount0Raw = 10^18`,
`amount1Raw = -2_500_000`. -/
def evEx : LogReceipt := ⟨⟨1000000000000000000, -2500000, "0xRECIPIENT"⟩, [0, 255], 7⟩

/-- The spec's worked example pool: `token0Decimals = 18`,
`token1Decimals = 6`. -/
def repoEx : Repository := ⟨18, 6, "WETH", "USDC", "0xPOOL", fun _ => some 0, [evEx]⟩

/-- A pool whose two tokens have equal decimals. -/
def repoEq : Repository := ⟨6, 6, "WETH", "USDC", "0xPOOL", fun _ => some 0, [evEx]⟩

/-- A repository whose block-timestamp lookup always fails. -/
def repoFail : Repository := ⟨18, 6, "WETH", "USDC", "0xPOOL", fun _ => none, [evEx]⟩

/-- The constant timestamp resolver used by `repoEx`. -/
def tsZero : ℕ → ℤ := fun _ => 0

/-- An event whose raw leg `2^54 + 1` needs 55 significand bits, one more
than binary64 offers. -/
def ev54 : LogReceipt := ⟨⟨2 ^ 54 + 1, 0, "0xR"⟩, [], 0⟩

/-- An event one wei above `10^18`: at 18 decimals its exact quotient
`1 + 10^(-18)` is not binary64-representable. -/
def evWei : LogReceipt := ⟨⟨10 ^ 18 + 1, 0, "0xW"⟩, [], 0⟩

/-- A pool with zero decimals on both tokens. -/
def repoD0 : Repository := ⟨0, 0, "T0", "T1", "0xC", fun _ => some 0, []⟩

/-- First event of the poll-model witness stream. -/
def evA : LogReceipt := ⟨⟨1, -1, "0xA"⟩, [1], 1⟩

/-- Second event of the poll-model witness stream. -/
def evB : LogReceipt := ⟨⟨2, -2, "0xB"⟩, [2], 2⟩

/-- A fresh event source over two distinct-hash events. -/
def srcW : EventSourceState := ⟨[evA, evB], 0⟩

section

attribute [local semireducible] Rat.mul Rat.add Rat.sub Rat.inv

theorem cast_pow_ten_pos (d : ℕ) : (0 : ℚ) < ((10 ^ d : ℕ) : ℚ) :=
  Nat.cast_pos.mpr (pow_pos (by norm_num) d)

theorem scale_pos_iff (x : ℤ) (d : ℕ) :
    0 < (x : ℚ) / ((10 ^ d : ℕ) : ℚ) ↔ 0 < x := by
  have h10 := cast_pow_ten_pos d
  rw [div_pos_iff]
  constructor
  · rintro (⟨h, _⟩ | ⟨_, h⟩)
    · exact_mod_cast h
    · exact absurd h (not_lt.mpr h10.le)
  · intro h
    exact Or.inl ⟨by exact_mod_cast h, h10⟩

theorem scale_eq_zero_iff (x : ℤ) (d : ℕ) :
    (x : ℚ) / ((10 ^ d : ℕ) : ℚ) = 0 ↔ x = 0 := by
  have h10 := cast_pow_ten_pos d
  rw [div_eq_zero_iff]
  simp [h10.ne']

theorem scale_neg_iff (x : ℤ) (d : ℕ) :
    (x : ℚ) / ((10 ^ d : ℕ) : ℚ) < 0 ↔ x < 0 := by
  have h10 := cast_pow_ten_pos d
  rw [div_neg_iff]
  constructor
  · rintro (⟨_, h⟩ | ⟨h, _⟩)
    · exact absurd h (not_lt.mpr h10.le)
    · exact_mod_cast h
  · intro h
    exact Or.inr ⟨by exact_mod_cast h, h10⟩

theorem pythonTrueDiv_pow_ten (x : ℤ) (d : ℕ) :
    pythonTrueDiv x (10 ^ d : ℤ) = toFloat64 (scale x d) := by
  unfold pythonTrueDiv scale
  norm_cast

set_option maxRecDepth 4000 in
/-- Claim C1 counterexample: at `amount0Raw = 10^18 + 1` with 18 decimals
the source's float division returns exactly `1`, not the exact rational
`(10^18 + 1) / 10^18` the claim asserts. -/
theorem amount0_exact_scale_counterexample :
    UniSwapV3WSSService.amount0_float repoEx false evWei = 1 ∧
    UniSwapV3WSSService.amount0_float repoEx false evWei ≠
      scale evWei.args.amount0 repoEx.token0_decimals := by
  constructor
  · decide
  · have h1 : UniSwapV3WSSService.amount0_float repoEx false evWei = 1 := by decide
    have h2 : scale evWei.args.amount0 repoEx.token0_decimals =
        ((10 : ℚ) ^ 18 + 1) / (10 : ℚ) ^ 18 := by
      unfold scale evWei repoEx
      push_cast
      ring
    rw [h1, h2]
    norm_num

/-- Claim C1 (amended): the reverse flag swaps which raw leg is scaled
while the decimal exponent stays that of the output slot, and each
quotient is returned as its correctly-rounded binary64 value:
`_amount0(false)` is the rounding of `amount0Raw / 10^token0Decimals`,
`_amount0(true)` of `amount1Raw / 10^token0Decimals`, and symmetrically
for `_amount1` with `token1Decimals`. -/
theorem amount_slots_match_rounded_scale (repo : Repository) (swap : LogReceipt) :
    UniSwapV3WSSService.amount0_float repo false swap =
        toFloat64 (scale swap.args.amount0 repo.token0_decimals) ∧
    UniSwapV3WSSService.amount0_float repo true swap =
        toFloat64 (scale swap.args.amount1 repo.token0_decimals) ∧
    UniSwapV3WSSService.amount1_float repo false swap =
        toFloat64 (scale swap.args.amount1 repo.token1_decimals) ∧
    UniSwapV3WSSService.amount1_float repo true swap =
        toFloat64 (scale swap.args.amount0 repo.token1_decimals) :=
  ⟨pythonTrueDiv_pow_ten _ _, pythonTrueDiv_pow_ten _ _,
   pythonTrueDiv_pow_ten _ _, pythonTrueDiv_pow_ten _ _⟩

/-- Claim C2 counterexample: on the spec's own example pool
(18/6 decimals) the unordered pair of amounts produced with the reverse
flag off is not the unordered pair produced with it on. -/
theorem reverse_pair_setwise_counterexample :
    ¬ ((UniSwapV3WSSService._amount0 repoEx false evEx = UniSwapV3WSSService._amount1 repoEx true evEx ∧
        UniSwapV3WSSService._amount1 repoEx false evEx = UniSwapV3WSSService._amount0 repoEx true evEx) ∨
       (UniSwapV3WSSService._amount0 repoEx false evEx = UniSwapV3WSSService._amount0 repoEx true evEx ∧
        UniSwapV3WSSService._amount1 repoEx false evEx = UniSwapV3WSSService._amount1 repoEx true evEx)) := by
  decide

/-- Claim C2 (amended): when the two tokens have equal decimals, toggling
the reverse flag only swaps which raw leg feeds which output slot, so the
unordered pair of produced values is unchanged. -/
theorem reverse_pair_setwise_of_equal_decimals (repo : Repository) (swap : LogReceipt)
    (h : repo.token0_decimals = repo.token1_decimals) :
    (UniSwapV3WSSService._amount0 repo false swap = UniSwapV3WSSService._amount1 repo true swap ∧
     UniSwapV3WSSService._amount1 repo false swap = UniSwapV3WSSService._amount0 repo true swap) ∨
    (UniSwapV3WSSService._amount0 repo false swap = UniSwapV3WSSService._amount0 repo true swap ∧
     UniSwapV3WSSService._amount1 repo false swap = UniSwapV3WSSService._amount1 repo true swap) :=
  Or.inl (by simp [UniSwapV3WSSService._amount0, UniSwapV3WSSService._amount1, h])

/-- Witness for the amended C2 at the equal-decimals pool `repoEq`. -/
theorem reverse_pair_setwise_of_equal_decimals_witness :
    repoEq.token0_decimals = repoEq.token1_decimals ∧
    ((UniSwapV3WSSService._amount0 repoEq false evEx = UniSwapV3WSSService._amount1 repoEq true evEx ∧
      UniSwapV3WSSService._amount1 repoEq false evEx = UniSwapV3WSSService._amount0 repoEq true evEx) ∨
     (UniSwapV3WSSService._amount0 repoEq false evEx = UniSwapV3WSSService._amount0 repoEq true evEx ∧
      UniSwapV3WSSService._amount1 repoEq false evEx = UniSwapV3WSSService._amount1 repoEq true evEx)) :=
  ⟨rfl, reverse_pair_setwise_of_equal_decimals repoEq evEx rfl⟩

/-- Claim C3 (code bug): the source divides with Python float true
division, i.e. binary64, not exact decimal arithmetic; at raw leg
`2^54 + 1` with 0 decimals the computed amount is `2^54`, not the exact
rational `(2^54 + 1) / 10^0`. -/
theorem amount0_float_precision_loss :
    UniSwapV3WSSService.amount0_float repoD0 false ev54 = 2 ^ 54 ∧
    UniSwapV3WSSService.amount0_float repoD0 false ev54 ≠
      scale ev54.args.amount0 repoD0.token0_decimals := by
  constructor
  · decide
  · have h1 : UniSwapV3WSSService.amount0_float repoD0 false ev54 = 2 ^ 54 := by decide
    have h2 : scale ev54.args.amount0 repoD0.token0_decimals = 2 ^ 54 + 1 := by
      norm_num [scale, ev54, repoD0]
    rw [h1, h2]
    norm_num

/-- Claim C4: on the spec's example (18/6 decimals, raw legs `10^18` and
`-2_500_000`) the non-reversed amounts are `1` and `-2.5`. -/
theorem forward_example_amounts :
    UniSwapV3WSSService._amount0 repoEx false evEx = 1 ∧
    UniSwapV3WSSService._amount1 repoEx false evEx = -(5 / 2) := by
  decide

/-- Claim C5 counterexample: with the reverse flag on, the source's
float `_amount0` of the example event is not `-2.5` (the code scales
`-2_500_000` by `10^18`). -/
theorem reverse_example_amount0_float_counterexample :
    UniSwapV3WSSService.amount0_float repoEx true evEx ≠ -(5 / 2) := by
  decide

/-- Claim C5 (amended): with the reverse flag on the example event
yields `amount0 = fl(-2_500_000 / 10^18) = -6189700196426901 * 2^(-91)`,
the binary64 value nearest `-2.5e-12`, and
`amount1 = 10^18 / 10^6 = 10^12` exactly. -/
theorem reverse_example_amounts_float :
    UniSwapV3WSSService.amount0_float repoEx true evEx =
      -(6189700196426901 / 2475880078570760549798248448) ∧
    UniSwapV3WSSService.amount1_float repoEx true evEx = 1000000000000 := by
  decide

theorem observe_go_none_of_mem (repo : Repository) (is_reverse : Bool) (blockchain : String) :
    ∀ l : List LogReceipt,
      (∃ swap ∈ l, repo.get_block_timestamp swap.blockNumber = none) →
        UniSwapV3WSSService.observe_go repo is_reverse blockchain l = none := by
  intro l
  induction l with
  | nil => rintro ⟨t, ht, _⟩; cases ht
  | cons s rest ih =>
    rintro ⟨t, ht, hnone⟩
    rcases List.mem_cons.mp ht with rfl | hmem
    · simp [UniSwapV3WSSService.observe_go, hnone]
    · cases hlk : repo.get_block_timestamp s.blockNumber with
      | none => simp [UniSwapV3WSSService.observe_go, hlk]
      | some ts => simp [UniSwapV3WSSService.observe_go, hlk, ih ⟨t, hmem, hnone⟩]

/-- Claim C6: if the block-timestamp lookup fails for any event of the
batch, the whole `observe` call fails and emits no records — never a
partial result. -/
theorem observe_fails_whole_batch (repo : Repository) (is_reverse : Bool) (blockchain : String)
    (h : ∃ swap ∈ repo.new_entries, repo.get_block_timestamp swap.blockNumber = none) :
    UniSwapV3WSSService.observe repo is_reverse blockchain = none :=
  observe_go_none_of_mem repo is_reverse blockchain repo.new_entries h

/-- Witness for C6 on a repository whose lookup always fails. -/
theorem observe_fails_whole_batch_witness :
    (∃ swap ∈ repoFail.new_entries, repoFail.get_block_timestamp swap.blockNumber = none) ∧
    UniSwapV3WSSService.observe repoFail false "ethereum" = none :=
  ⟨⟨evEx, List.mem_cons_self evEx [], rfl⟩,
   observe_fails_whole_batch repoFail false "ethereum" ⟨evEx, List.mem_cons_self evEx [], rfl⟩⟩

theorem observe_go_eq_map (repo : Repository) (is_reverse : Bool) (blockchain : String)
    (f : ℕ → ℤ) (hf : ∀ n, repo.get_block_timestamp n = some (f n)) :
    ∀ l : List LogReceipt,
      UniSwapV3WSSService.observe_go repo is_reverse blockchain l =
        some (l.map fun swap => specRecord repo is_reverse blockchain (f swap.blockNumber) swap) := by
  intro l
  induction l with
  | nil => rfl
  | cons s rest ih =>
    simp [UniSwapV3WSSService.observe_go, hf s.blockNumber, ih, specRecord]

/-- Claim C7: a successful `observe` call emits exactly one record per
raw event of the batch, each the flat tuple — chain, pool address,
recipient, token0 symbol, token1 symbol, `_amount0`, `_amount1`,
transaction-hash hex string, civil timestamp string — in this order. -/
theorem observe_emits_one_record_per_event (repo : Repository) (f : ℕ → ℤ)
    (hf : ∀ n, repo.get_block_timestamp n = some (f n)) (is_reverse : Bool) (blockchain : String) :
    UniSwapV3WSSService.observe repo is_reverse blockchain =
      some (repo.new_entries.map fun swap =>
        specRecord repo is_reverse blockchain (f swap.blockNumber) swap) :=
  observe_go_eq_map repo is_reverse blockchain f hf repo.new_entries

/-- Witness for C7 on the example repository. -/
theorem observe_emits_one_record_per_event_witness :
    (∀ n, repoEx.get_block_timestamp n = some (tsZero n)) ∧
    UniSwapV3WSSService.observe repoEx false "ethereum" =
      some [("ethereum", "0xPOOL", "0xRECIPIENT", "WETH", "USDC", 1, -(5 / 2), "0x00ff",
             "1970-01-01 00:00:00")] := by
  refine ⟨fun n => rfl, ?_⟩
  rw [observe_emits_one_record_per_event repoEx tsZero (fun n => rfl) false "ethereum"]
  rfl

theorem le_foldl_max (c : ℕ) (l : List ℕ) : c ≤ l.foldl max c := by
  induction l generalizing c with
  | nil => exact le_refl c
  | cons a l ih => exact le_trans (le_max_left c a) (ih (max c a))

theorem take_drop_append {α : Type} (l : List α) (a c M : ℕ) (h : max c a ≤ M) :
    (l.take a).drop c ++ (l.take M).drop (max c a) = (l.take M).drop c := by
  rcases Nat.le_total a c with hac | hca
  · rw [max_eq_left hac]
    have hnil : (l.take a).drop c = [] := by
      apply List.drop_eq_nil_of_le
      calc (l.take a).length ≤ a := by simp [List.length_take]
        _ ≤ c := hac
    rw [hnil, List.nil_append]
  · rw [max_eq_right hca]
    have ha : a ≤ M := le_trans (le_max_right c a) h
    rw [show l.take a = (l.take M).take a by rw [List.take_take, min_eq_left ha]]
    rw [List.drop_take]
    rw [show (l.take M).drop a = ((l.take M).drop c).drop (a - c) by
      rw [List.drop_drop]; congr 1; omega]
    exact List.take_append_drop _ _

theorem runPolls_flatten (avails : List ℕ) (stream : List LogReceipt) (c : ℕ) :
    (runPolls ⟨stream, c⟩ avails).flatten = (stream.take (avails.foldl max c)).drop c := by
  induction avails generalizing c with
  | nil =>
    refine Eq.symm (List.drop_eq_nil_of_le ?_)
    simp [List.length_take]
  | cons a rest ih =>
    simp only [runPolls, get_new_entries, List.flatten_cons, List.foldl_cons]
    rw [ih (max c a)]
    exact take_drop_append stream a c _ (le_foldl_max _ _)

/-- Claim C8: across any sequence of `get_new_entries` calls on one
source instance, no transaction hash is ever delivered twice — provided
the underlying stream carries pairwise-distinct hashes, the concatenation
of all batches is duplicate-free (at-most-once delivery per instance). -/
theorem poll_at_most_once_delivery (s : EventSourceState) (avails : List ℕ)
    (h : (s.stream.map LogReceipt.transactionHash).Nodup) :
    (((runPolls s avails).flatten).map LogReceipt.transactionHash).Nodup := by
  obtain ⟨stream, c⟩ := s
  rw [runPolls_flatten]
  exact List.Nodup.sublist
    (List.Sublist.map _ ((List.drop_sublist _ _).trans (List.take_sublist _ _))) h

/-- Witness for C8: a two-event stream drained by two successive calls. -/
theorem poll_at_most_once_delivery_witness :
    (srcW.stream.map LogReceipt.transactionHash).Nodup ∧
    (((runPolls srcW [1, 2]).flatten).map LogReceipt.transactionHash).Nodup :=
  ⟨by decide, poll_at_most_once_delivery srcW [1, 2] (by decide)⟩

/-- Claim C9: the HTTP variant inherits `_amount0`, `_amount1` and
`observe` from the WSS variant, overriding only the repository binding,
so on equal repository data the two variants compute identical outputs. -/
theorem http_variant_matches_wss_variant (repo : Repository) (is_reverse : Bool)
    (swap : LogReceipt) (blockchain : String) :
    UniSwapV3HTTPService._amount0 repo is_reverse swap =
        UniSwapV3WSSService._amount0 repo is_reverse swap ∧
    UniSwapV3HTTPService._amount1 repo is_reverse swap =
        UniSwapV3WSSService._amount1 repo is_reverse swap ∧
    UniSwapV3HTTPService.observe repo is_reverse blockchain =
        UniSwapV3WSSService.observe repo is_reverse blockchain :=
  ⟨rfl, rfl, rfl⟩

/-- Claim C10: scaling divides by the positive constant `10^decimals`, so
each computed amount has exactly the sign of the raw leg it was scaled
from; in particular, reversal reroutes legs but never negates sign. -/
theorem amounts_preserve_sign (repo : Repository) (is_reverse : Bool) (swap : LogReceipt) :
    ((0 < UniSwapV3WSSService._amount0 repo is_reverse swap ↔
        0 < (if is_reverse then swap.args.amount1 else swap.args.amount0)) ∧
     (UniSwapV3WSSService._amount0 repo is_reverse swap = 0 ↔
        (if is_reverse then swap.args.amount1 else swap.args.amount0) = 0) ∧
     (UniSwapV3WSSService._amount0 repo is_reverse swap < 0 ↔
        (if is_reverse then swap.args.amount1 else swap.args.amount0) < 0)) ∧
    ((0 < UniSwapV3WSSService._amount1 repo is_reverse swap ↔
        0 < (if is_reverse then swap.args.amount0 else swap.args.amount1)) ∧
     (UniSwapV3WSSService._amount1 repo is_reverse swap = 0 ↔
        (if is_reverse then swap.args.amount0 else swap.args.amount1) = 0) ∧
     (UniSwapV3WSSService._amount1 repo is_reverse swap < 0 ↔
        (if is_reverse then swap.args.amount0 else swap.args.amount1) < 0)) := by
  cases is_reverse <;>
    exact ⟨⟨scale_pos_iff _ _, scale_eq_zero_iff _ _, scale_neg_iff _ _⟩,
           ⟨scale_pos_iff _ _, scale_eq_zero_iff _ _, scale_neg_iff _ _⟩⟩

end
